import Mathlib

/-!
# multi-tier-tasks backend (`backend/main.go`)

A shallow embedding of the HTTP service of `main.go`: the record type
`DummyData`, the CORS wrapper `corsMiddleware`, the two handlers
`getRowsHandler` and `postRowHandler`, and the routing table that `main`
installs.  The libraries the program calls (`net/http`, `encoding/json`,
`database/sql`, `gorilla/mux`) are modelled by the small part of their
documented behaviour that the program exercises.
-/

set_option autoImplicit false

namespace MultiTier

/-! ## Data model -/

/-- The struct `DummyData` of main.go (lines 15-19). -/
structure DummyData where
  ID : Int
  Name : String
  Value : String
  deriving DecidableEq

/-- The zero value that `var d DummyData` declares. -/
def DummyData.zero : DummyData := ⟨0, "", ""⟩

/-! ## JSON values (`encoding/json`) -/

/-- A JSON value.  An integer literal (no fraction, no exponent) is kept as its
value, any other number literal as its text. -/
inductive JSON where
  | null
  | bool (b : Bool)
  | int (n : Int)
  | float (lit : List Char)
  | str (s : String)
  | arr (xs : List JSON)
  | obj (kvs : List (String × JSON))

/-- The four bytes the scanner of `encoding/json` treats as white space. -/
def isSpace (c : Char) : Bool :=
  c.toNat == 32 || c.toNat == 9 || c.toNat == 13 || c.toNat == 10

def skipSpace : List Char → List Char
  | [] => []
  | c :: cs => if isSpace c then skipSpace cs else c :: cs

def isDigit (c : Char) : Bool := 48 ≤ c.toNat && c.toNat ≤ 57

/-- Value of a hexadecimal digit, if it is one. -/
def hexVal (c : Char) : Option Nat :=
  let n := c.toNat
  if 48 ≤ n && n ≤ 57 then some (n - 48)
  else if 97 ≤ n && n ≤ 102 then some (n - 87)
  else if 65 ≤ n && n ≤ 70 then some (n - 55)
  else none

/-- Go's `getu4`: the four hexadecimal digits after a backslash-u. -/
def hex4 : List Char → Option (Nat × List Char)
  | a :: b :: c :: d :: rest =>
    match hexVal a, hexVal b, hexVal c, hexVal d with
    | some x, some y, some z, some w => some (((x * 16 + y) * 16 + z) * 16 + w, rest)
    | _, _, _, _ => none
  | _ => none

/-- The one-letter escapes of a JSON string. -/
def simpleEscape (c : Char) : Option Char :=
  let n := c.toNat
  if n == 34 || n == 92 || n == 47 then some c
  else if n == 98 then some (Char.ofNat 8)
  else if n == 102 then some (Char.ofNat 12)
  else if n == 110 then some (Char.ofNat 10)
  else if n == 114 then some (Char.ofNat 13)
  else if n == 116 then some (Char.ofNat 9)
  else none

/-- The Unicode replacement character that Go's `unquote` substitutes for a
lone surrogate. -/
def replacementChar : Char := Char.ofNat 0xFFFD

/-- Reads the rest of a string literal, the opening quote already consumed:
the unquoted contents and the input after the closing quote. -/
def parseStr : Nat → List Char → List Char → Option (List Char × List Char)
  | 0, _, _ => none
  | fuel + 1, acc, cs =>
    match cs with
    | [] => none
    | c :: rest =>
      if c.toNat == 34 then some (acc.reverse, rest)
      else if c.toNat == 92 then
        match rest with
        | [] => none
        | e :: rest2 =>
          if e.toNat == 117 then
            match hex4 rest2 with
            | none => none
            | some (u, rest3) =>
              if 0xD800 ≤ u && u < 0xE000 then
                match rest3 with
                | b :: v :: rest4 =>
                  if b.toNat == 92 && v.toNat == 117 then
                    match hex4 rest4 with
                    | some (lo, rest5) =>
                      if u < 0xDC00 && 0xDC00 ≤ lo && lo < 0xE000 then
                        parseStr fuel
                          (Char.ofNat ((u - 0xD800) * 1024 + (lo - 0xDC00) + 0x10000) :: acc) rest5
                      else parseStr fuel (replacementChar :: acc) rest3
                    | none => parseStr fuel (replacementChar :: acc) rest3
                  else parseStr fuel (replacementChar :: acc) rest3
                | _ => parseStr fuel (replacementChar :: acc) rest3
              else parseStr fuel (Char.ofNat u :: acc) rest3
          else
            match simpleEscape e with
            | some ch => parseStr fuel (ch :: acc) rest2
            | none => none
      else if c.toNat < 32 then none
      else parseStr fuel (c :: acc) rest

/-- Splits off the longest run of decimal digits. -/
def spanDigits : List Char → List Char × List Char
  | [] => ([], [])
  | c :: cs =>
    if isDigit c then
      let r := spanDigits cs
      (c :: r.1, r.2)
    else ([], c :: cs)

def digitsVal (ds : List Char) : Nat :=
  ds.foldl (fun n c => n * 10 + (c.toNat - 48)) 0

/-- The integer part of a number literal: a single `0`, or a digit run that
does not start with `0`. -/
def parseIntPart : List Char → Option (List Char × List Char)
  | [] => none
  | c :: cs =>
    if c.toNat == 48 then some ([c], cs)
    else if isDigit c then
      let r := spanDigits cs
      some (c :: r.1, r.2)
    else none

/-- Optional fraction of a number literal. -/
def parseFrac : List Char → Option (List Char × List Char)
  | c :: cs =>
    if c.toNat == 46 then
      match spanDigits cs with
      | ([], _) => none
      | (ds, rest) => some (c :: ds, rest)
    else some ([], c :: cs)
  | [] => some ([], [])

/-- Optional exponent of a number literal. -/
def parseExp : List Char → Option (List Char × List Char)
  | c :: cs =>
    if c.toNat == 101 || c.toNat == 69 then
      let signed : List Char × List Char :=
        match cs with
        | s :: cs2 => if s.toNat == 43 || s.toNat == 45 then ([s], cs2) else ([], cs)
        | [] => ([], [])
      match spanDigits signed.2 with
      | ([], _) => none
      | (ds, rest) => some (c :: (signed.1 ++ ds), rest)
    else some ([], c :: cs)
  | [] => some ([], [])

/-- A number literal, the optional minus sign included. -/
def parseNumber (cs : List Char) : Option (JSON × List Char) :=
  let neg : Bool := match cs with
    | c :: _ => c.toNat == 45
    | [] => false
  let body := if neg then cs.drop 1 else cs
  match parseIntPart body with
  | none => none
  | some (ds, r1) =>
    match parseFrac r1 with
    | none => none
    | some (fr, r2) =>
      match parseExp r2 with
      | none => none
      | some (ex, r3) =>
        if fr.isEmpty && ex.isEmpty then
          some (JSON.int (if neg then - (digitsVal ds : Int) else (digitsVal ds : Int)), r3)
        else
          some (JSON.float ((if neg then [Char.ofNat 45] else []) ++ ds ++ fr ++ ex), r3)

/-- Drops the expected characters `lit` from the front of the input. -/
def expect : List Char → List Char → Option (List Char)
  | [], cs => some cs
  | _ :: _, [] => none
  | l :: ls, c :: cs => if l == c then expect ls cs else none

/-- The nesting limit of the scanner (`maxNestingDepth`). -/
def maxNestingDepth : Nat := 10000

mutual
/-- Reads one JSON value from the front of the input (leading white space
already dropped). -/
def parseValue : Nat → Nat → List Char → Option (JSON × List Char)
  | 0, _, _ => none
  | fuel + 1, depth, cs =>
    match cs with
    | [] => none
    | c :: rest =>
      if c.toNat == 123 then
        if maxNestingDepth ≤ depth then none
        else
          match skipSpace rest with
          | [] => none
          | k :: rest2 =>
            if k.toNat == 125 then some (JSON.obj [], rest2)
            else parseMembers fuel (depth + 1) (k :: rest2)
      else if c.toNat == 91 then
        if maxNestingDepth ≤ depth then none
        else
          match skipSpace rest with
          | [] => none
          | k :: rest2 =>
            if k.toNat == 93 then some (JSON.arr [], rest2)
            else parseElems fuel (depth + 1) (k :: rest2)
      else if c.toNat == 34 then
        match parseStr (rest.length + 1) [] rest with
        | some (s, rest2) => some (JSON.str (String.mk s), rest2)
        | none => none
      else if c.toNat == 116 then
        (expect [Char.ofNat 114, Char.ofNat 117, Char.ofNat 101] rest).map
          (fun r => (JSON.bool true, r))
      else if c.toNat == 102 then
        (expect [Char.ofNat 97, Char.ofNat 108, Char.ofNat 115, Char.ofNat 101] rest).map
          (fun r => (JSON.bool false, r))
      else if c.toNat == 110 then
        (expect [Char.ofNat 117, Char.ofNat 108, Char.ofNat 108] rest).map
          (fun r => (JSON.null, r))
      else if c.toNat == 45 || isDigit c then parseNumber (c :: rest)
      else none
/-- The elements of an array after the opening bracket, up to and including
the closing bracket. -/
def parseElems : Nat → Nat → List Char → Option (JSON × List Char)
  | 0, _, _ => none
  | fuel + 1, depth, cs =>
    match parseValue fuel depth cs with
    | none => none
    | some (v, rest) =>
      match skipSpace rest with
      | [] => none
      | c :: rest2 =>
        if c.toNat == 93 then some (JSON.arr [v], rest2)
        else if c.toNat == 44 then
          match parseElems fuel depth (skipSpace rest2) with
          | some (JSON.arr vs, rest3) => some (JSON.arr (v :: vs), rest3)
          | _ => none
        else none
/-- The members of an object after the opening brace, up to and including the
closing brace. -/
def parseMembers : Nat → Nat → List Char → Option (JSON × List Char)
  | 0, _, _ => none
  | fuel + 1, depth, cs =>
    match cs with
    | [] => none
    | q :: rest =>
      if q.toNat == 34 then
        match parseStr (rest.length + 1) [] rest with
        | none => none
        | some (key, rest2) =>
          match skipSpace rest2 with
          | [] => none
          | colon :: rest3 =>
            if colon.toNat == 58 then
              match parseValue fuel depth (skipSpace rest3) with
              | none => none
              | some (v, rest4) =>
                match skipSpace rest4 with
                | [] => none
                | c :: rest5 =>
                  if c.toNat == 125 then some (JSON.obj [(String.mk key, v)], rest5)
                  else if c.toNat == 44 then
                    match parseMembers fuel depth (skipSpace rest5) with
                    | some (JSON.obj kvs, rest6) => some (JSON.obj ((String.mk key, v) :: kvs), rest6)
                    | _ => none
                  else none
            else none
      else none
end

/-- What `Decoder.readValue` hands to the unmarshaller: the first JSON value of
the stream.  Bytes after that value are never inspected.  The fuel is more than
the recursion can use: two nested calls consume at least one character. -/
def parseBody (body : String) : Option JSON :=
  let cs := skipSpace body.data
  (parseValue (2 * cs.length + 2) 0 cs).map Prod.fst

/-! ## Unmarshalling into `DummyData` -/

/-- Why `Decode` returned an error. -/
inductive DecodeError where
  | syntaxError
  | typeError
  deriving DecidableEq

def lowerAscii (c : Char) : Char :=
  if 65 ≤ c.toNat && c.toNat ≤ 90 then Char.ofNat (c.toNat + 32) else c

/-- Whether an object key selects the struct field with JSON name `field`:
the exact name, or the name up to letter case (none of the letters of `id`,
`name`, `value` has a non-ASCII case variant). -/
def keyMatches (key field : String) : Bool :=
  key.data.map lowerAscii == field.data.map lowerAscii

/-- Range of Go's `int` on the 64-bit platforms the service is built for. -/
def inIntRange (n : Int) : Bool := -(2 ^ 63 : Int) ≤ n && n < (2 ^ 63 : Int)

/-- Stores one object member into the struct: `none` is a type mismatch.  A
JSON `null` leaves the field as it is, a key that selects no field is
skipped. -/
def setField (d : DummyData) (key : String) (v : JSON) : Option DummyData :=
  if keyMatches key "id" then
    match v with
    | JSON.null => some d
    | JSON.int n => if inIntRange n then some { d with ID := n } else none
    | _ => none
  else if keyMatches key "name" then
    match v with
    | JSON.null => some d
    | JSON.str s => some { d with Name := s }
    | _ => none
  else if keyMatches key "value" then
    match v with
    | JSON.null => some d
    | JSON.str s => some { d with Value := s }
    | _ => none
  else some d

/-- Stores the members of an object in order; a later duplicate overrides an
earlier one.  The unmarshaller keeps going after a type mismatch but still
reports it, so one mismatch anywhere fails the whole call. -/
def setFields : DummyData → List (String × JSON) → Option DummyData
  | d, [] => some d
  | d, (k, v) :: rest =>
    match setField d k v with
    | some d1 => setFields d1 rest
    | none => none

/-- Unmarshalling of a JSON value into a `DummyData`: an object fills the
fields, `null` has no effect and is no error, any other value is a type
mismatch. -/
def unmarshal (d : DummyData) : JSON → Except DecodeError DummyData
  | JSON.null => .ok d
  | JSON.obj kvs =>
    match setFields d kvs with
    | some d1 => .ok d1
    | none => .error DecodeError.typeError
  | _ => .error DecodeError.typeError

/-- The call `json.NewDecoder(r.Body).Decode(&d)` of `postRowHandler`. -/
def Decode (body : String) (d : DummyData) : Except DecodeError DummyData :=
  match parseBody body with
  | none => .error DecodeError.syntaxError
  | some v => unmarshal d v

/-! ## Encoding -/

/-- The JSON value that `Encode` writes for a `DummyData`, fields in
declaration order under their `json` tags. -/
def DummyData.toJSON (d : DummyData) : JSON :=
  JSON.obj [("id", JSON.int d.ID), ("name", JSON.str d.Name), ("value", JSON.str d.Value)]

/-- A Go slice of `DummyData`: `none` is the nil slice. -/
abbrev Slice := Option (List DummyData)

/-- Go's `append(s, d)`. -/
def Slice.append (s : Slice) (d : DummyData) : Slice :=
  match s with
  | none => some [d]
  | some xs => some (xs ++ [d])

/-- The JSON value that `Encode` writes for a slice: a nil slice encodes as
`null`, any other slice as an array. -/
def Slice.toJSON : Slice → JSON
  | none => JSON.null
  | some xs => JSON.arr (xs.map DummyData.toJSON)

/-! ## `net/http`: headers, response writer, `http.Error` -/

/-- A header map; every key the program uses is in canonical form and has one
value. -/
abbrev Header := List (String × String)

/-- `Header.Set`: replaces the value stored under `k`. -/
def Header.Set (h : Header) (k v : String) : Header :=
  (k, v) :: h.filter (fun p => p.1 != k)

/-- `Header.Get`. -/
def Header.Get (h : Header) (k : String) : Option String :=
  match h with
  | [] => none
  | (k1, v) :: rest => if k1 == k then some v else Header.Get rest k

/-- One `Write` call on the response: plain text, or the JSON text of a value
followed by a newline (what `Encoder.Encode` emits). -/
inductive Chunk where
  | text (s : String)
  | json (v : JSON)

/-- The state of an `http.ResponseWriter`: the live header map, the status and
headers frozen by the first `WriteHeader`, and the chunks written. -/
structure ResponseWriter where
  header : Header
  wrote : Option (Nat × Header)
  body : List Chunk

/-- The writer the server hands to the root handler. -/
def ResponseWriter.fresh : ResponseWriter := ⟨[], none, []⟩

/-- The call `w.Header().Set(k, v)`. -/
def ResponseWriter.SetHeader (w : ResponseWriter) (k v : String) : ResponseWriter :=
  { w with header := w.header.Set k v }

/-- `WriteHeader`: the first call fixes status and headers, later calls are
ignored. -/
def ResponseWriter.WriteHeader (w : ResponseWriter) (code : Nat) : ResponseWriter :=
  match w.wrote with
  | some _ => w
  | none => { w with wrote := some (code, w.header) }

/-- `Write`: sends the headers with status 200 if none were sent yet. -/
def ResponseWriter.Write (w : ResponseWriter) (c : Chunk) : ResponseWriter :=
  let w1 := w.WriteHeader 200
  { w1 with body := w1.body ++ [c] }

/-- `http.Error(w, msg, code)`. -/
def httpError (w : ResponseWriter) (msg : String) (code : Nat) : ResponseWriter :=
  let w1 := w.SetHeader "Content-Type" "text/plain; charset=utf-8"
  let w2 := w1.SetHeader "X-Content-Type-Options" "nosniff"
  (w2.WriteHeader code).Write (Chunk.text (msg ++ "\n"))

/-- The response as the client receives it. -/
structure Response where
  status : Nat
  header : Header
  body : List Chunk

/-- What the server sends once the handler has returned: status 200 if the
handler never wrote. -/
def ResponseWriter.finish (w : ResponseWriter) : Response :=
  match w.wrote with
  | some (code, h) => ⟨code, h, w.body⟩
  | none => ⟨200, w.header, w.body⟩

/-- The part of an `http.Request` the program reads. -/
structure Request where
  Method : String
  Path : String
  Body : String

/-! ## `database/sql`: the table `dummy_data` -/

/-- The database behind the handle `db`: the rows of `dummy_data` in storage
order, the last value of the `id` sequence, and the number of operations
issued on the handle. -/
structure DB where
  rows : List DummyData
  lastId : Int
  calls : Nat
  deriving DecidableEq

/-- The table right after `CREATE TABLE`. -/
def DB.empty : DB := ⟨[], 0, 0⟩

/-- How the storage misbehaves during a `SELECT`. -/
inductive QueryFault where
  /-- The query runs to completion. -/
  | none
  /-- `db.Query` itself returns the error. -/
  | start (e : String)
  /-- The result stream breaks after `n` rows: `rows.Next` returns false and
  `rows.Err` holds the error. -/
  | next (n : Nat) (e : String)
  /-- Row number `n` (from 0) cannot be converted by `rows.Scan`. -/
  | scan (n : Nat) (e : String)

/-- The cursor `*sql.Rows`: for each row `Next` delivers, what `Scan` makes of
it, and the error `rows.Err` reports after the loop. -/
structure Rows where
  items : List (Except String DummyData)
  err : Option String

/-- The call `db.Query("SELECT id, name, value FROM dummy_data")`. -/
def DB.Query (db : DB) (f : QueryFault) : Except String Rows × DB :=
  let db1 := { db with calls := db.calls + 1 }
  match f with
  | QueryFault.none => (.ok ⟨db.rows.map Except.ok, Option.none⟩, db1)
  | QueryFault.start e => (.error e, db1)
  | QueryFault.next n e =>
    if n < db.rows.length then (.ok ⟨(db.rows.take n).map Except.ok, some e⟩, db1)
    else (.ok ⟨db.rows.map Except.ok, Option.none⟩, db1)
  | QueryFault.scan n e =>
    if n < db.rows.length then
      (.ok ⟨(db.rows.take n).map Except.ok ++ [Except.error e]
              ++ (db.rows.drop (n + 1)).map Except.ok, Option.none⟩, db1)
    else (.ok ⟨db.rows.map Except.ok, Option.none⟩, db1)

/-- The call `db.QueryRow("INSERT ... RETURNING id", name, value).Scan(&d.ID)`:
with no fault the row is stored under the next value of the sequence, which is
returned; with a fault the error is returned and nothing is stored. -/
def DB.QueryRow (db : DB) (f : Option String) (name value : String) : Except String Int × DB :=
  match f with
  | some e => (.error e, { db with calls := db.calls + 1 })
  | Option.none =>
    let k := db.lastId + 1
    (.ok k, { rows := db.rows ++ [⟨k, name, value⟩], lastId := k, calls := db.calls + 1 })

/-- The storage behaviour during one request. -/
structure Env where
  query : QueryFault
  ins : Option String

/-- A storage that works. -/
def Env.healthy : Env := ⟨QueryFault.none, Option.none⟩

/-! ## The handlers of main.go -/

/-- An `http.Handler` of this program: it acts on the response writer and on
the database. -/
abbrev Handler := ResponseWriter → Request → DB → ResponseWriter × DB

/-- The loop `for rows.Next()` of `getRowsHandler` (lines 92-100): a failing
`Scan` stops it with the error, otherwise the row is appended.  The loop ends
when `Next` returns false; `rows.Err` is not consulted. -/
def scanRows : List (Except String DummyData) → Slice → Except String Slice
  | [], acc => .ok acc
  | Except.error e :: _, _ => .error e
  | Except.ok d :: rest, acc => scanRows rest (acc.append d)

/-- The function `getRowsHandler` of main.go (lines 83-104). -/
def getRowsHandler (f : QueryFault) : Handler := fun w _ db =>
  match db.Query f with
  | (.error _, db1) => (httpError w "Failed to query database" 500, db1)
  | (.ok rows, db1) =>
    match scanRows rows.items Option.none with
    | .error _ => (httpError w "Failed to scan row" 500, db1)
    | .ok dummyDataList =>
      ((w.SetHeader "Content-Type" "application/json").Write (Chunk.json dummyDataList.toJSON), db1)

/-- The function `postRowHandler` of main.go (lines 106-122). -/
def postRowHandler (f : Option String) : Handler := fun w r db =>
  match Decode r.Body DummyData.zero with
  | .error _ => (httpError w "Failed to decode JSON body" 400, db)
  | .ok d =>
    match db.QueryRow f d.Name d.Value with
    | (.error _, db1) => (httpError w "Failed to insert row" 500, db1)
    | (.ok id, db1) =>
      let d1 : DummyData := { d with ID := id }
      ((w.SetHeader "Content-Type" "application/json").Write (Chunk.json d1.toJSON), db1)

/-- The function `corsMiddleware` of main.go (lines 71-81). -/
def corsMiddleware (next : Handler) : Handler := fun w r db =>
  let w1 := w.SetHeader "Access-Control-Allow-Origin" "*"
  let w2 := w1.SetHeader "Access-Control-Allow-Methods" "GET, POST, OPTIONS"
  let w3 := w2.SetHeader "Access-Control-Allow-Headers" "Content-Type"
  if r.Method == "OPTIONS" then (w3, db)
  else next w3 r db

/-! ## `gorilla/mux`: the routing table of `main` -/

/-- Splits a path at its slashes. -/
def splitSlash : List Char → List (List Char)
  | [] => [[]]
  | c :: cs =>
    if c.toNat == 47 then [] :: splitSlash cs
    else
      match splitSlash cs with
      | [] => [[c]]
      | seg :: segs => (c :: seg) :: segs

/-- `path.Clean` on a rooted path, as a stack of kept elements (innermost
first): empty elements and `.` are dropped, `..` removes the element before
it and is dropped at the root. -/
def cleanSegs : List (List Char) → List (List Char) → List (List Char)
  | [], stack => stack
  | seg :: segs, stack =>
    if seg.isEmpty || seg == [Char.ofNat 46] then cleanSegs segs stack
    else if seg == [Char.ofNat 46, Char.ofNat 46] then cleanSegs segs (stack.drop 1)
    else cleanSegs segs (seg :: stack)

/-- The helper `cleanPath` of mux: the path made rooted and cleaned, a
trailing slash kept. -/
def cleanPath (p : String) : String :=
  let slash := Char.ofNat 47
  match p.data with
  | [] => "/"
  | c :: cs =>
    let rooted := if c == slash then c :: cs else slash :: c :: cs
    let kept := (cleanSegs (splitSlash rooted) []).reverse
    let np : List Char := if kept.isEmpty then [slash] else kept.foldr (fun seg acc => slash :: (seg ++ acc)) []
    if rooted.getLast? == some slash && np != [slash] then String.mk (np ++ [slash])
    else String.mk np

/-- The router of `main` (lines 60-64).  A path that is not clean is answered
with a redirect to its clean form; `/rows` is dispatched on the method, with
405 for any method other than GET and POST; every other path is answered by
`http.NotFound`. -/
def router (env : Env) : Handler := fun w r db =>
  if cleanPath r.Path != r.Path then
    (((w.SetHeader "Location" (cleanPath r.Path)).WriteHeader 301), db)
  else if r.Path == "/rows" then
    if r.Method == "GET" then getRowsHandler env.query w r db
    else if r.Method == "POST" then postRowHandler env.ins w r db
    else (w.WriteHeader 405, db)
  else (httpError w "404 page not found" 404, db)

/-- One request served by the handler that `main` installs (line 65):
`corsMiddleware(router)` on a fresh response writer. -/
def serve (env : Env) (r : Request) (db : DB) : Response × DB :=
  let out := corsMiddleware (router env) ResponseWriter.fresh r db
  (out.1.finish, out.2)

/-! ## Notions used to state the properties -/

/-- The three headers `corsMiddleware` sets are present with their values. -/
def hasCors (h : Header) : Prop :=
  h.Get "Access-Control-Allow-Origin" = some "*" ∧
  h.Get "Access-Control-Allow-Methods" = some "GET, POST, OPTIONS" ∧
  h.Get "Access-Control-Allow-Headers" = some "Content-Type"

/-- A header name other than the three CORS names. -/
def notCorsKey (k : String) : Prop :=
  "Access-Control-Allow-Origin" ≠ k ∧ "Access-Control-Allow-Methods" ≠ k ∧
  "Access-Control-Allow-Headers" ≠ k

/-- The CORS headers are in the live header map and in the headers already
sent, if any. -/
def CorsInv (w : ResponseWriter) : Prop :=
  hasCors w.header ∧ ∀ c h, w.wrote = some (c, h) → hasCors h

/-- The writer as `corsMiddleware` leaves it before it looks at the method. -/
def corsWriter (w : ResponseWriter) : ResponseWriter :=
  ((w.SetHeader "Access-Control-Allow-Origin" "*").SetHeader
    "Access-Control-Allow-Methods" "GET, POST, OPTIONS").SetHeader
    "Access-Control-Allow-Headers" "Content-Type"

/-- A whole body that is one JSON value with nothing but white space after
it. -/
def parseDocument (body : String) : Option JSON :=
  let cs := skipSpace body.data
  match parseValue (2 * cs.length + 2) 0 cs with
  | some (v, rest) => if (skipSpace rest).isEmpty then some v else none
  | none => none

/-- Whether the members of an object include `key` with a string value. -/
def hasStringField (key : String) : List (String × JSON) → Bool
  | [] => false
  | (k, JSON.str _) :: rest => k == key || hasStringField key rest
  | _ :: rest => hasStringField key rest

/-- The specification's "valid JSON document matching the Record shape": the
body is one JSON document, an object with string fields `name` and `value`. -/
def matchesRecordShape (body : String) : Bool :=
  match parseDocument body with
  | some (JSON.obj kvs) => hasStringField "name" kvs && hasStringField "value" kvs
  | _ => false

/-- Reads a record back from the JSON object `Encode` writes for it. -/
def recordOf : JSON → Option DummyData
  | JSON.obj [(a, JSON.int k), (b, JSON.str n), (c, JSON.str v)] =>
    if a == "id" && b == "name" && c == "value" then some ⟨k, n, v⟩ else none
  | _ => none

def allRecords : List JSON → Option (List DummyData)
  | [] => some []
  | x :: xs =>
    match recordOf x, allRecords xs with
    | some d, some ds => some (d :: ds)
    | _, _ => none

/-- The record a POST response carries in its body. -/
def postRecord (resp : Response) : Option DummyData :=
  match resp.body with
  | [Chunk.json v] => recordOf v
  | _ => none

/-- The records a GET response carries in its body; the body `null` carries no
record. -/
def listRecords (resp : Response) : Option (List DummyData) :=
  match resp.body with
  | [Chunk.json JSON.null] => some []
  | [Chunk.json (JSON.arr xs)] => allRecords xs
  | _ => none

/-- A sequence of POST /rows requests served one after the other by a healthy
storage: the responses in order and the database afterwards. -/
def runPosts : List String → DB → List Response × DB
  | [], db => ([], db)
  | body :: rest, db =>
    let out := serve Env.healthy ⟨"POST", "/rows", body⟩ db
    let tail := runPosts rest out.2
    (out.1 :: tail.1, tail.2)

/-- Two query faults strike at the same step of `getRowsHandler`; the errors
they carry may differ. -/
def sameStep : QueryFault → QueryFault → Bool
  | QueryFault.none, QueryFault.none => true
  | QueryFault.start _, QueryFault.start _ => true
  | QueryFault.next n _, QueryFault.next m _ => n == m
  | QueryFault.scan n _, QueryFault.scan m _ => n == m
  | _, _ => false

/-- The headers of a response produced by `http.Error` under the CORS
wrapper. -/
def errorHeader : Header :=
  [("X-Content-Type-Options", "nosniff"), ("Content-Type", "text/plain; charset=utf-8"),
   ("Access-Control-Allow-Headers", "Content-Type"),
   ("Access-Control-Allow-Methods", "GET, POST, OPTIONS"),
   ("Access-Control-Allow-Origin", "*")]

/-- The headers of a JSON response under the CORS wrapper. -/
def jsonHeader : Header :=
  [("Content-Type", "application/json"),
   ("Access-Control-Allow-Headers", "Content-Type"),
   ("Access-Control-Allow-Methods", "GET, POST, OPTIONS"),
   ("Access-Control-Allow-Origin", "*")]

/-! ## Header and response-writer lemmas -/

theorem Header.Get_Set_same (h : Header) (k v : String) : (h.Set k v).Get k = some v := by
  simp [Header.Set, Header.Get]

theorem Header.Get_filter_ne (h : Header) (k k1 : String) (hne : k ≠ k1) :
    Header.Get (h.filter (fun p => p.1 != k1)) k = Header.Get h k := by
  induction h with
  | nil => rfl
  | cons p rest ih =>
    obtain ⟨a, b⟩ := p
    by_cases hk : a = k1
    · subst hk
      have h1 : (a == k) = false := by simpa using (Ne.symm hne)
      simp [List.filter, Header.Get, h1, ih]
    · have h2 : (a != k1) = true := by simpa using hk
      simp [List.filter, Header.Get, h2, ih]

theorem Header.Get_Set_ne (h : Header) (k k1 v : String) (hne : k ≠ k1) :
    (h.Set k1 v).Get k = h.Get k := by
  have h1 : (k1 == k) = false := by simpa using (Ne.symm hne)
  simp [Header.Set, Header.Get, h1, Header.Get_filter_ne h k k1 hne]

theorem hasCors_Set (h : Header) (k v : String) (hk : notCorsKey k) (hc : hasCors h) :
    hasCors (h.Set k v) := by
  obtain ⟨k1, k2, k3⟩ := hk
  obtain ⟨c1, c2, c3⟩ := hc
  exact ⟨by rw [Header.Get_Set_ne h _ k v k1]; exact c1,
         by rw [Header.Get_Set_ne h _ k v k2]; exact c2,
         by rw [Header.Get_Set_ne h _ k v k3]; exact c3⟩

theorem CorsInv_SetHeader (w : ResponseWriter) (k v : String) (hk : notCorsKey k)
    (hw : CorsInv w) : CorsInv (w.SetHeader k v) :=
  ⟨hasCors_Set w.header k v hk hw.1, fun c h hc => hw.2 c h hc⟩

theorem CorsInv_WriteHeader (w : ResponseWriter) (code : Nat) (hw : CorsInv w) :
    CorsInv (w.WriteHeader code) := by
  unfold ResponseWriter.WriteHeader
  cases hwr : w.wrote with
  | some p => simpa [hwr] using hw
  | none =>
    refine ⟨hw.1, ?_⟩
    intro c h hc
    simp at hc
    rw [← hc.2]
    exact hw.1

theorem CorsInv_Write (w : ResponseWriter) (c : Chunk) (hw : CorsInv w) :
    CorsInv (w.Write c) := by
  have h1 := CorsInv_WriteHeader w 200 hw
  exact ⟨h1.1, fun c h hc => h1.2 c h hc⟩

theorem CorsInv_httpError (w : ResponseWriter) (msg : String) (code : Nat) (hw : CorsInv w) :
    CorsInv (httpError w msg code) := by
  unfold httpError
  apply CorsInv_Write
  apply CorsInv_WriteHeader
  apply CorsInv_SetHeader _ _ _ (by unfold notCorsKey; decide)
  exact CorsInv_SetHeader _ _ _ (by unfold notCorsKey; decide) hw

theorem CorsInv_finish (w : ResponseWriter) (hw : CorsInv w) : hasCors w.finish.header := by
  unfold ResponseWriter.finish
  cases hwr : w.wrote with
  | some p =>
    obtain ⟨c, h⟩ := p
    exact hw.2 c h hwr
  | none => exact hw.1

theorem CorsInv_getRowsHandler (f : QueryFault) (w : ResponseWriter) (r : Request) (db : DB)
    (hw : CorsInv w) : CorsInv (getRowsHandler f w r db).1 := by
  unfold getRowsHandler
  rcases hq : db.Query f with ⟨res, db1⟩
  cases res with
  | error e => exact CorsInv_httpError _ _ _ hw
  | ok rows =>
    simp only
    cases hs : scanRows rows.items Option.none with
    | error e => exact CorsInv_httpError _ _ _ hw
    | ok l =>
      exact CorsInv_Write _ _ (CorsInv_SetHeader _ _ _ (by unfold notCorsKey; decide) hw)

theorem CorsInv_postRowHandler (f : Option String) (w : ResponseWriter) (r : Request) (db : DB)
    (hw : CorsInv w) : CorsInv (postRowHandler f w r db).1 := by
  unfold postRowHandler
  cases hd : Decode r.Body DummyData.zero with
  | error e => exact CorsInv_httpError _ _ _ hw
  | ok d =>
    simp only
    rcases hq : db.QueryRow f d.Name d.Value with ⟨res, db1⟩
    cases res with
    | error e => exact CorsInv_httpError _ _ _ hw
    | ok k =>
      exact CorsInv_Write _ _ (CorsInv_SetHeader _ _ _ (by unfold notCorsKey; decide) hw)

theorem CorsInv_router (env : Env) (w : ResponseWriter) (r : Request) (db : DB)
    (hw : CorsInv w) : CorsInv (router env w r db).1 := by
  unfold router
  split
  · exact CorsInv_WriteHeader _ _ (CorsInv_SetHeader _ _ _ (by unfold notCorsKey; decide) hw)
  · split
    · split
      · exact CorsInv_getRowsHandler _ _ _ _ hw
      · split
        · exact CorsInv_postRowHandler _ _ _ _ hw
        · exact CorsInv_WriteHeader _ _ hw
    · exact CorsInv_httpError _ _ _ hw

theorem hasCors_corsWriter (w : ResponseWriter) : hasCors (corsWriter w).header := by
  unfold corsWriter ResponseWriter.SetHeader
  refine ⟨?_, ?_, ?_⟩
  · rw [Header.Get_Set_ne _ _ _ _ (by decide), Header.Get_Set_ne _ _ _ _ (by decide),
      Header.Get_Set_same]
  · rw [Header.Get_Set_ne _ _ _ _ (by decide), Header.Get_Set_same]
  · rw [Header.Get_Set_same]

/-! ## Claims -/

/-- C1: every request passed through `corsMiddleware` around the router of
`main`, whatever its method, path and body and however the storage behaves,
is answered with the headers Access-Control-Allow-Origin "*",
Access-Control-Allow-Methods "GET, POST, OPTIONS" and
Access-Control-Allow-Headers "Content-Type". -/
theorem cors_headers_on_every_response (env : Env) (r : Request) (db : DB) :
    (serve env r db).1.header.Get "Access-Control-Allow-Origin" = some "*" ∧
    (serve env r db).1.header.Get "Access-Control-Allow-Methods" = some "GET, POST, OPTIONS" ∧
    (serve env r db).1.header.Get "Access-Control-Allow-Headers" = some "Content-Type" := by
  have h0 : CorsInv (corsWriter ResponseWriter.fresh) :=
    ⟨hasCors_corsWriter _, fun c h hc => by simp [corsWriter, ResponseWriter.SetHeader, ResponseWriter.fresh] at hc⟩
  have h1 : CorsInv (corsMiddleware (router env) ResponseWriter.fresh r db).1 := by
    unfold corsMiddleware
    simp only
    split
    · exact h0
    · exact CorsInv_router env _ r db h0
  exact CorsInv_finish _ h1

/-- C2: for a request with method OPTIONS (any path, any body, any wrapped
handler and any writer state) `corsMiddleware` returns right after setting its
three headers: the wrapped handler has no part in the result and the database,
its operation count included, is as before; served on a fresh writer the
response has status 200 and an empty body. -/
theorem options_short_circuits (next : Handler) (env : Env) (w : ResponseWriter)
    (r : Request) (db : DB) (hm : r.Method = "OPTIONS") :
    corsMiddleware next w r db = (corsWriter w, db) ∧
    (serve env r db).1.status = 200 ∧
    (serve env r db).1.body = [] ∧
    (serve env r db).2 = db := by
  have h : ∀ nx : Handler, ∀ w1 : ResponseWriter, corsMiddleware nx w1 r db = (corsWriter w1, db) := by
    intro nx w1
    simp [corsMiddleware, corsWriter, hm]
  refine ⟨h next w, ?_, ?_, ?_⟩ <;>
    simp [serve, h, corsWriter, ResponseWriter.SetHeader, ResponseWriter.fresh,
      ResponseWriter.finish]

theorem options_short_circuits_witness :
    (⟨"OPTIONS", "/anything", "ignored"⟩ : Request).Method = "OPTIONS" ∧
    (serve Env.healthy ⟨"OPTIONS", "/anything", "ignored"⟩ ⟨[⟨1, "a", "1"⟩], 1, 4⟩).1.status = 200 ∧
    (serve Env.healthy ⟨"OPTIONS", "/anything", "ignored"⟩ ⟨[⟨1, "a", "1"⟩], 1, 4⟩).2
      = ⟨[⟨1, "a", "1"⟩], 1, 4⟩ :=
  ⟨rfl,
   (options_short_circuits (router Env.healthy) Env.healthy ResponseWriter.fresh
      ⟨"OPTIONS", "/anything", "ignored"⟩ ⟨[⟨1, "a", "1"⟩], 1, 4⟩ rfl).2.1,
   (options_short_circuits (router Env.healthy) Env.healthy ResponseWriter.fresh
      ⟨"OPTIONS", "/anything", "ignored"⟩ ⟨[⟨1, "a", "1"⟩], 1, 4⟩ rfl).2.2.2⟩

/-! ## How `serve` reaches the two handlers -/

theorem cleanPath_rows : cleanPath "/rows" = "/rows" := by decide

theorem serve_post (env : Env) (r : Request) (db : DB)
    (hm : r.Method = "POST") (hp : r.Path = "/rows") :
    serve env r db =
      ((postRowHandler env.ins (corsWriter ResponseWriter.fresh) r db).1.finish,
       (postRowHandler env.ins (corsWriter ResponseWriter.fresh) r db).2) := by
  have h1 : (r.Method == "OPTIONS") = false := by rw [hm]; decide
  have h2 : (r.Method == "GET") = false := by rw [hm]; decide
  have h3 : (r.Method == "POST") = true := by rw [hm]; decide
  have h4 : (cleanPath r.Path != r.Path) = false := by rw [hp]; decide
  have h5 : (r.Path == "/rows") = true := by rw [hp]; decide
  simp only [serve, corsMiddleware, router, corsWriter, h1, h2, h3, h4, h5, if_true,
    Bool.false_eq_true, if_false]

theorem serve_get (env : Env) (r : Request) (db : DB)
    (hm : r.Method = "GET") (hp : r.Path = "/rows") :
    serve env r db =
      ((getRowsHandler env.query (corsWriter ResponseWriter.fresh) r db).1.finish,
       (getRowsHandler env.query (corsWriter ResponseWriter.fresh) r db).2) := by
  have h1 : (r.Method == "OPTIONS") = false := by rw [hm]; decide
  have h2 : (r.Method == "GET") = true := by rw [hm]; decide
  have h4 : (cleanPath r.Path != r.Path) = false := by rw [hp]; decide
  have h5 : (r.Path == "/rows") = true := by rw [hp]; decide
  simp only [serve, corsMiddleware, router, corsWriter, h1, h2, h4, h5, if_true,
    Bool.false_eq_true, if_false]

theorem finish_httpError (msg : String) (code : Nat) :
    (httpError (corsWriter ResponseWriter.fresh) msg code).finish
      = ⟨code, errorHeader, [Chunk.text (msg ++ "\n")]⟩ := by
  simp [httpError, corsWriter, ResponseWriter.fresh, ResponseWriter.SetHeader,
    ResponseWriter.WriteHeader, ResponseWriter.Write, ResponseWriter.finish, errorHeader,
    Header.Set]

theorem finish_json (v : JSON) :
    (((corsWriter ResponseWriter.fresh).SetHeader "Content-Type" "application/json").Write
        (Chunk.json v)).finish
      = ⟨200, jsonHeader, [Chunk.json v]⟩ := by
  simp [corsWriter, ResponseWriter.fresh, ResponseWriter.SetHeader,
    ResponseWriter.WriteHeader, ResponseWriter.Write, ResponseWriter.finish, jsonHeader,
    Header.Set]

/-! ## The handlers, case by case -/

theorem postRowHandler_undecodable (f : Option String) (w : ResponseWriter) (r : Request)
    (db : DB) (e : DecodeError) (hd : Decode r.Body DummyData.zero = .error e) :
    postRowHandler f w r db = (httpError w "Failed to decode JSON body" 400, db) := by
  simp [postRowHandler, hd]

theorem postRowHandler_inserted (w : ResponseWriter) (r : Request) (db : DB) (d : DummyData)
    (hd : Decode r.Body DummyData.zero = .ok d) :
    postRowHandler Option.none w r db =
      ((w.SetHeader "Content-Type" "application/json").Write
          (Chunk.json (DummyData.toJSON ⟨db.lastId + 1, d.Name, d.Value⟩)),
       ⟨db.rows ++ [⟨db.lastId + 1, d.Name, d.Value⟩], db.lastId + 1, db.calls + 1⟩) := by
  simp [postRowHandler, hd, DB.QueryRow]

theorem postRowHandler_insert_failed (e : String) (w : ResponseWriter) (r : Request) (db : DB)
    (d : DummyData) (hd : Decode r.Body DummyData.zero = .ok d) :
    postRowHandler (some e) w r db =
      (httpError w "Failed to insert row" 500, { db with calls := db.calls + 1 }) := by
  simp [postRowHandler, hd, DB.QueryRow]

/-! ## Claims on POST /rows -/

/-- C3 (as stated, refuted): the bodies `null` and the empty object are not
"an object with string fields name and value", yet POST /rows answers each
with status 200 and stores a row with empty name and value. -/
theorem post_accepts_null_and_empty_object :
    (matchesRecordShape "null" = false ∧
      (serve Env.healthy ⟨"POST", "/rows", "null"⟩ DB.empty).1.status = 200 ∧
      (serve Env.healthy ⟨"POST", "/rows", "null"⟩ DB.empty).2.rows = [⟨1, "", ""⟩]) ∧
    (matchesRecordShape "\x7b\x7d" = false ∧
      (serve Env.healthy ⟨"POST", "/rows", "\x7b\x7d"⟩ DB.empty).1.status = 200 ∧
      (serve Env.healthy ⟨"POST", "/rows", "\x7b\x7d"⟩ DB.empty).2.rows = [⟨1, "", ""⟩]) := by
  decide

/-- C3 (amended): every POST /rows whose body `Decode` rejects (no complete
JSON value at its start, a value that is neither an object nor null, or a
member for id, name or value of the wrong JSON type) is answered with status
400 and the fixed text "Failed to decode JSON body", and the database is left
exactly as it was: no row inserted, no operation issued. -/
theorem undecodable_body_rejected (env : Env) (r : Request) (db : DB) (e : DecodeError)
    (hm : r.Method = "POST") (hp : r.Path = "/rows")
    (hd : Decode r.Body DummyData.zero = .error e) :
    (serve env r db).1.status = 400 ∧
    (serve env r db).1.body = [Chunk.text "Failed to decode JSON body\n"] ∧
    (serve env r db).2 = db := by
  rw [serve_post env r db hm hp, postRowHandler_undecodable _ _ r db e hd, finish_httpError]
  refine ⟨rfl, ?_, rfl⟩
  show [Chunk.text ("Failed to decode JSON body" ++ "\n")] = _
  rfl

theorem undecodable_body_rejected_witness :
    Decode "not json" DummyData.zero = .error DecodeError.syntaxError ∧
    (serve Env.healthy ⟨"POST", "/rows", "not json"⟩ ⟨[⟨1, "a", "1"⟩], 1, 1⟩).1.status = 400 ∧
    (serve Env.healthy ⟨"POST", "/rows", "not json"⟩ ⟨[⟨1, "a", "1"⟩], 1, 1⟩).2
      = ⟨[⟨1, "a", "1"⟩], 1, 1⟩ :=
  ⟨rfl,
   (undecodable_body_rejected Env.healthy ⟨"POST", "/rows", "not json"⟩ ⟨[⟨1, "a", "1"⟩], 1, 1⟩
      DecodeError.syntaxError rfl rfl rfl).1,
   (undecodable_body_rejected Env.healthy ⟨"POST", "/rows", "not json"⟩ ⟨[⟨1, "a", "1"⟩], 1, 1⟩
      DecodeError.syntaxError rfl rfl rfl).2.2⟩

/-- C4: a POST /rows whose body decodes to the record (id0, name, value) and
whose insert succeeds stores exactly one new row (k, name, value), k being the
identity the storage assigns, and answers with status 200, Content-Type
application/json and the JSON encoding of (k, name, value); a second request
whose body decodes to the same name and value under another id is answered
identically and leaves the same database. -/
theorem post_stores_and_echoes (env : Env) (r r2 : Request) (db : DB) (id0 id1 : Int)
    (name value : String) (hins : env.ins = Option.none)
    (hm : r.Method = "POST") (hp : r.Path = "/rows")
    (hd : Decode r.Body DummyData.zero = .ok ⟨id0, name, value⟩)
    (hm2 : r2.Method = "POST") (hp2 : r2.Path = "/rows")
    (hd2 : Decode r2.Body DummyData.zero = .ok ⟨id1, name, value⟩) :
    (serve env r db).2 =
      ⟨db.rows ++ [⟨db.lastId + 1, name, value⟩], db.lastId + 1, db.calls + 1⟩ ∧
    (serve env r db).1.status = 200 ∧
    (serve env r db).1.header.Get "Content-Type" = some "application/json" ∧
    (serve env r db).1.body = [Chunk.json (DummyData.toJSON ⟨db.lastId + 1, name, value⟩)] ∧
    serve env r2 db = serve env r db := by
  rw [serve_post env r db hm hp, serve_post env r2 db hm2 hp2, hins,
    postRowHandler_inserted _ r db _ hd, postRowHandler_inserted _ r2 db _ hd2, finish_json]
  refine ⟨rfl, rfl, ?_, rfl, rfl⟩
  show jsonHeader.Get "Content-Type" = some "application/json"
  decide

theorem post_stores_and_echoes_witness :
    (serve Env.healthy ⟨"POST", "/rows", "\x7b\"id\":99,\"name\":\"a\",\"value\":\"1\"\x7d"⟩
        DB.empty).2 = ⟨[⟨1, "a", "1"⟩], 1, 1⟩ ∧
    serve Env.healthy ⟨"POST", "/rows", "\x7b\"name\":\"a\",\"value\":\"1\"\x7d"⟩ DB.empty
      = serve Env.healthy ⟨"POST", "/rows", "\x7b\"id\":99,\"name\":\"a\",\"value\":\"1\"\x7d"⟩
          DB.empty :=
  ⟨(post_stores_and_echoes Env.healthy
      ⟨"POST", "/rows", "\x7b\"id\":99,\"name\":\"a\",\"value\":\"1\"\x7d"⟩
      ⟨"POST", "/rows", "\x7b\"name\":\"a\",\"value\":\"1\"\x7d"⟩ DB.empty 99 0 "a" "1"
      rfl rfl rfl rfl rfl rfl rfl).1,
   (post_stores_and_echoes Env.healthy
      ⟨"POST", "/rows", "\x7b\"id\":99,\"name\":\"a\",\"value\":\"1\"\x7d"⟩
      ⟨"POST", "/rows", "\x7b\"name\":\"a\",\"value\":\"1\"\x7d"⟩ DB.empty 99 0 "a" "1"
      rfl rfl rfl rfl rfl rfl rfl).2.2.2.2⟩

/-! ## GET /rows -/

theorem scanRows_ok (l : List DummyData) (acc : Slice) :
    scanRows (l.map Except.ok) acc = .ok (l.foldl Slice.append acc) := by
  induction l generalizing acc with
  | nil => rfl
  | cons d rest ih => simp [scanRows, ih]

theorem scanRows_error (pre : List DummyData) (e : String)
    (rest : List (Except String DummyData)) (acc : Slice) :
    scanRows (pre.map Except.ok ++ [Except.error e] ++ rest) acc = .error e := by
  induction pre generalizing acc with
  | nil => simp [scanRows]
  | cons d pre ih =>
    have h := ih (acc.append d)
    simpa [scanRows] using h

theorem foldl_append_some (l xs : List DummyData) :
    l.foldl Slice.append (some xs) = some (xs ++ l) := by
  induction l generalizing xs with
  | nil => simp
  | cons d rest ih => simp [Slice.append, ih]

theorem foldl_append_none (l : List DummyData) :
    l.foldl Slice.append Option.none = if l = [] then Option.none else some l := by
  cases l with
  | nil => rfl
  | cons d rest => simp [Slice.append, foldl_append_some]

theorem getRowsHandler_ok (w : ResponseWriter) (r : Request) (db : DB) :
    getRowsHandler QueryFault.none w r db =
      ((w.SetHeader "Content-Type" "application/json").Write
          (Chunk.json (Slice.toJSON (if db.rows = [] then Option.none else some db.rows))),
       { db with calls := db.calls + 1 }) := by
  simp [getRowsHandler, DB.Query, scanRows_ok, foldl_append_none]

theorem getRowsHandler_query_failed (e : String) (w : ResponseWriter) (r : Request) (db : DB) :
    getRowsHandler (QueryFault.start e) w r db =
      (httpError w "Failed to query database" 500, { db with calls := db.calls + 1 }) := by
  simp [getRowsHandler, DB.Query]

theorem getRowsHandler_scan_failed (n : Nat) (e : String) (w : ResponseWriter) (r : Request)
    (db : DB) (hn : n < db.rows.length) :
    getRowsHandler (QueryFault.scan n e) w r db =
      (httpError w "Failed to scan row" 500, { db with calls := db.calls + 1 }) := by
  simp only [getRowsHandler, DB.Query, hn, if_true, scanRows_error]

theorem getRowsHandler_iteration_failed (n : Nat) (e : String) (w : ResponseWriter)
    (r : Request) (db : DB) (hn : n < db.rows.length) :
    getRowsHandler (QueryFault.next n e) w r db =
      ((w.SetHeader "Content-Type" "application/json").Write
          (Chunk.json (Slice.toJSON
            (if db.rows.take n = [] then Option.none else some (db.rows.take n)))),
       { db with calls := db.calls + 1 }) := by
  simp only [getRowsHandler, DB.Query, hn, if_true, scanRows_ok, foldl_append_none]

/-- C5 (the code at the failing input): on an empty table a successful GET
/rows answers with status 200 and Content-Type application/json, but its body
is the JSON value `null`, not the empty array. -/
theorem get_empty_table_writes_null :
    (serve Env.healthy ⟨"GET", "/rows", ""⟩ DB.empty).1.status = 200 ∧
    (serve Env.healthy ⟨"GET", "/rows", ""⟩ DB.empty).1.header.Get "Content-Type"
      = some "application/json" ∧
    (serve Env.healthy ⟨"GET", "/rows", ""⟩ DB.empty).1.body = [Chunk.json JSON.null] ∧
    (serve Env.healthy ⟨"GET", "/rows", ""⟩ DB.empty).1.body ≠ [Chunk.json (JSON.arr [])] := by
  refine ⟨by decide, by decide, rfl, ?_⟩
  intro h
  have h2 : [Chunk.json JSON.null] = [Chunk.json (JSON.arr [])] := h
  simp at h2

/-- On a table with at least one row a successful GET /rows answers with status
200, Content-Type application/json and the JSON array of all rows in storage
order. -/
theorem get_nonempty_table (env : Env) (r : Request) (db : DB) (hq : env.query = QueryFault.none)
    (hm : r.Method = "GET") (hp : r.Path = "/rows") (hne : db.rows ≠ []) :
    (serve env r db).1 = ⟨200, jsonHeader, [Chunk.json (JSON.arr (db.rows.map DummyData.toJSON))]⟩ := by
  rw [serve_get env r db hm hp, hq, getRowsHandler_ok, finish_json]
  simp [hne, Slice.toJSON]

/-- C7 (the code at the failing input): the table holds two rows and the result
stream breaks after the first; `getRowsHandler` answers with status 200 and a
list of that one row. -/
theorem get_iteration_failure_truncated_list :
    (serve ⟨QueryFault.next 1 "connection reset", Option.none⟩ ⟨"GET", "/rows", ""⟩
        ⟨[⟨1, "a", "1"⟩, ⟨2, "b", "2"⟩], 2, 0⟩).1.status = 200 ∧
    (serve ⟨QueryFault.next 1 "connection reset", Option.none⟩ ⟨"GET", "/rows", ""⟩
        ⟨[⟨1, "a", "1"⟩, ⟨2, "b", "2"⟩], 2, 0⟩).1.body
      = [Chunk.json (JSON.arr [DummyData.toJSON ⟨1, "a", "1"⟩])] :=
  ⟨by decide, rfl⟩

/-! ## POSTs followed by a GET -/

theorem serve_post_ok (body : String) (db : DB) (d : DummyData)
    (hd : Decode body DummyData.zero = .ok d) :
    serve Env.healthy ⟨"POST", "/rows", body⟩ db =
      (⟨200, jsonHeader, [Chunk.json (DummyData.toJSON ⟨db.lastId + 1, d.Name, d.Value⟩)]⟩,
       ⟨db.rows ++ [⟨db.lastId + 1, d.Name, d.Value⟩], db.lastId + 1, db.calls + 1⟩) := by
  rw [serve_post Env.healthy ⟨"POST", "/rows", body⟩ db rfl rfl]
  show ((postRowHandler Option.none _ _ db).1.finish, (postRowHandler Option.none _ _ db).2) = _
  rw [postRowHandler_inserted _ ⟨"POST", "/rows", body⟩ db d hd, finish_json]

theorem serve_get_ok (db : DB) :
    serve Env.healthy ⟨"GET", "/rows", ""⟩ db =
      (⟨200, jsonHeader,
          [Chunk.json (Slice.toJSON (if db.rows = [] then Option.none else some db.rows))]⟩,
       { db with calls := db.calls + 1 }) := by
  rw [serve_get Env.healthy ⟨"GET", "/rows", ""⟩ db rfl rfl]
  show ((getRowsHandler QueryFault.none _ _ db).1.finish, (getRowsHandler QueryFault.none _ _ db).2) = _
  rw [getRowsHandler_ok, finish_json]

theorem recordOf_toJSON (d : DummyData) : recordOf d.toJSON = some d := by
  simp [recordOf, DummyData.toJSON]

theorem allRecords_map_toJSON (l : List DummyData) :
    allRecords (l.map DummyData.toJSON) = some l := by
  induction l with
  | nil => rfl
  | cons d rest ih => simp [allRecords, recordOf_toJSON, ih]

theorem listRecords_get (db : DB) :
    listRecords (serve Env.healthy ⟨"GET", "/rows", ""⟩ db).1 = some db.rows := by
  rw [serve_get_ok]
  by_cases h : db.rows = []
  · simp [h, listRecords, Slice.toJSON]
  · simp [h, listRecords, Slice.toJSON, allRecords_map_toJSON]

theorem runPosts_rows (bodies : List String) (db : DB)
    (hdec : ∀ b ∈ bodies, ∃ d, Decode b DummyData.zero = .ok d) :
    ∃ recs : List DummyData,
      (runPosts bodies db).2.rows = db.rows ++ recs ∧
      (runPosts bodies db).1.map postRecord = recs.map some ∧
      recs.length = bodies.length ∧
      recs.map (fun d => d.ID) = (List.range bodies.length).map (fun (i : Nat) => db.lastId + 1 + (i : Int)) := by
  induction bodies generalizing db with
  | nil => exact ⟨[], by simp [runPosts]⟩
  | cons body rest ih =>
    obtain ⟨d, hd⟩ := hdec body (List.mem_cons_self _ _)
    have hrest : ∀ b ∈ rest, ∃ d, Decode b DummyData.zero = .ok d :=
      fun b hb => hdec b (List.mem_cons_of_mem _ hb)
    obtain ⟨recs, h1, h2, h3, h4⟩ :=
      ih ⟨db.rows ++ [⟨db.lastId + 1, d.Name, d.Value⟩], db.lastId + 1, db.calls + 1⟩ hrest
    refine ⟨⟨db.lastId + 1, d.Name, d.Value⟩ :: recs, ?_, ?_, ?_, ?_⟩
    · simp only [runPosts, serve_post_ok body db d hd]
      rw [h1]
      simp
    · simp only [runPosts, serve_post_ok body db d hd, List.map_cons, h2]
      simp [postRecord, recordOf_toJSON]
    · simp [h3]
    · simp only [List.map_cons, h4, List.length_cons, List.range_succ_eq_map, List.map_map]
      refine congrArg₂ List.cons (by simp) ?_
      apply List.map_congr_left
      intro i _
      simp only [Function.comp, Nat.cast_succ]
      ring

/-- C6: starting from the empty table, after any sequence of N successful POST
/rows requests (every body decodes, the storage is healthy, nothing else
writes) a successful GET /rows answers 200 with exactly N records; the record
at each position equals the record the POST at that position returned, so each
POST is represented exactly once, and the ids are 1, ..., N.  (For N = 0 the
body is `null`, which carries no record.) -/
theorem get_after_posts (bodies : List String)
    (hdec : ∀ b ∈ bodies, ∃ d, Decode b DummyData.zero = .ok d) :
    ∃ rs : List DummyData,
      listRecords (serve Env.healthy ⟨"GET", "/rows", ""⟩ (runPosts bodies DB.empty).2).1
        = some rs ∧
      (serve Env.healthy ⟨"GET", "/rows", ""⟩ (runPosts bodies DB.empty).2).1.status = 200 ∧
      rs.length = bodies.length ∧
      (runPosts bodies DB.empty).1.map postRecord = rs.map some ∧
      rs.map (fun d => d.ID) = (List.range bodies.length).map (fun (i : Nat) => (i : Int) + 1) := by
  obtain ⟨recs, h1, h2, h3, h4⟩ := runPosts_rows bodies DB.empty hdec
  refine ⟨recs, ?_, ?_, h3, h2, ?_⟩
  · rw [listRecords_get, h1]
    simp [DB.empty]
  · rw [serve_get_ok]
  · rw [h4]
    apply List.map_congr_left
    intro i _
    simp [DB.empty, add_comm]

theorem get_after_posts_witness :
    ∃ rs : List DummyData,
      listRecords (serve Env.healthy ⟨"GET", "/rows", ""⟩
        (runPosts ["\x7b\"name\":\"a\",\"value\":\"1\"\x7d", "\x7b\"name\":\"b\",\"value\":\"2\"\x7d"]
          DB.empty).2).1 = some rs ∧
      rs = [⟨1, "a", "1"⟩, ⟨2, "b", "2"⟩] ∧
      (runPosts ["\x7b\"name\":\"a\",\"value\":\"1\"\x7d", "\x7b\"name\":\"b\",\"value\":\"2\"\x7d"]
          DB.empty).1.map postRecord = rs.map some := by
  obtain ⟨rs, h1, _, _, h4, _⟩ :=
    get_after_posts ["\x7b\"name\":\"a\",\"value\":\"1\"\x7d", "\x7b\"name\":\"b\",\"value\":\"2\"\x7d"]
      (fun b hb => by
        simp only [List.mem_cons, List.mem_singleton, List.not_mem_nil, or_false] at hb
        rcases hb with rfl | rfl
        · exact ⟨⟨0, "a", "1"⟩, rfl⟩
        · exact ⟨⟨0, "b", "2"⟩, rfl⟩)
  refine ⟨rs, h1, ?_, h4⟩
  have h5 : listRecords (serve Env.healthy ⟨"GET", "/rows", ""⟩
        (runPosts ["\x7b\"name\":\"a\",\"value\":\"1\"\x7d", "\x7b\"name\":\"b\",\"value\":\"2\"\x7d"]
          DB.empty).2).1 = some [⟨1, "a", "1"⟩, ⟨2, "b", "2"⟩] := by decide
  rw [h5] at h1
  exact (Option.some.inj h1).symm

/-! ## Members that are left out of a POST body -/

theorem setField_keeps_name (d d1 : DummyData) (k : String) (v : JSON)
    (h : setField d k v = some d1) (hk : keyMatches k "name" = false) : d1.Name = d.Name := by
  unfold setField at h
  rw [hk] at h
  split at h
  · cases v <;> simp at h <;> first | (rw [← h]) | (rw [← h.2])
  · simp only [Bool.false_eq_true, if_false] at h
    split at h
    · cases v <;> simp at h <;> rw [← h]
    · simp at h; rw [← h]

theorem setField_keeps_value (d d1 : DummyData) (k : String) (v : JSON)
    (h : setField d k v = some d1) (hk : keyMatches k "value" = false) : d1.Value = d.Value := by
  unfold setField at h
  rw [hk] at h
  split at h
  · cases v <;> simp at h <;> first | (rw [← h]) | (rw [← h.2])
  · split at h
    · cases v <;> simp at h <;> rw [← h]
    · simp at h; rw [← h]

theorem setFields_keeps_name (kvs : List (String × JSON)) (d d1 : DummyData)
    (h : setFields d kvs = some d1) (hk : ∀ kv ∈ kvs, keyMatches kv.1 "name" = false) :
    d1.Name = d.Name := by
  induction kvs generalizing d with
  | nil => simp [setFields] at h; rw [← h]
  | cons kv rest ih =>
    obtain ⟨k, v⟩ := kv
    unfold setFields at h
    cases hs : setField d k v with
    | none => simp [hs] at h
    | some d2 =>
      simp only [hs] at h
      rw [ih d2 h (fun kv hkv => hk kv (List.mem_cons_of_mem _ hkv)),
        setField_keeps_name d d2 k v hs (hk (k, v) (List.mem_cons_self _ _))]

theorem setFields_keeps_value (kvs : List (String × JSON)) (d d1 : DummyData)
    (h : setFields d kvs = some d1) (hk : ∀ kv ∈ kvs, keyMatches kv.1 "value" = false) :
    d1.Value = d.Value := by
  induction kvs generalizing d with
  | nil => simp [setFields] at h; rw [← h]
  | cons kv rest ih =>
    obtain ⟨k, v⟩ := kv
    unfold setFields at h
    cases hs : setField d k v with
    | none => simp [hs] at h
    | some d2 =>
      simp only [hs] at h
      rw [ih d2 h (fun kv hkv => hk kv (List.mem_cons_of_mem _ hkv)),
        setField_keeps_value d d2 k v hs (hk (k, v) (List.mem_cons_self _ _))]

/-- C8: when the body of a POST /rows is a JSON object that `Decode` accepts, a
field with no member in the object (name, value, or both) decodes to the empty
string; with a successful insert the handler stores the row with those strings
and answers 200 with the record. Nothing but decodability is checked. -/
theorem missing_fields_are_empty_strings (env : Env) (r : Request) (db : DB)
    (kvs : List (String × JSON)) (d : DummyData) (hins : env.ins = Option.none)
    (hm : r.Method = "POST") (hp : r.Path = "/rows")
    (hobj : parseBody r.Body = some (JSON.obj kvs))
    (hd : Decode r.Body DummyData.zero = .ok d) :
    ((∀ kv ∈ kvs, keyMatches kv.1 "name" = false) → d.Name = "") ∧
    ((∀ kv ∈ kvs, keyMatches kv.1 "value" = false) → d.Value = "") ∧
    (serve env r db).1.status = 200 ∧
    (serve env r db).1.body = [Chunk.json (DummyData.toJSON ⟨db.lastId + 1, d.Name, d.Value⟩)] ∧
    (serve env r db).2.rows = db.rows ++ [⟨db.lastId + 1, d.Name, d.Value⟩] := by
  have hset : setFields DummyData.zero kvs = some d := by
    unfold Decode at hd
    rw [hobj] at hd
    unfold unmarshal at hd
    cases hs : setFields DummyData.zero kvs with
    | none => simp [hs] at hd
    | some d2 => simp [hs] at hd; rw [hd]
  refine ⟨fun hk => setFields_keeps_name kvs _ d hset hk,
    fun hk => setFields_keeps_value kvs _ d hset hk, ?_⟩
  rw [serve_post env r db hm hp, hins, postRowHandler_inserted _ r db d hd, finish_json]
  exact ⟨rfl, rfl, rfl⟩

theorem missing_fields_are_empty_strings_witness :
    Decode "\x7b\x7d" DummyData.zero = .ok ⟨0, "", ""⟩ ∧
    Decode "\x7b\"name\":\"a\"\x7d" DummyData.zero = .ok ⟨0, "a", ""⟩ ∧
    (serve Env.healthy ⟨"POST", "/rows", "\x7b\"name\":\"a\"\x7d"⟩ DB.empty).1.status = 200 ∧
    (serve Env.healthy ⟨"POST", "/rows", "\x7b\"name\":\"a\"\x7d"⟩ DB.empty).2.rows
      = DB.empty.rows ++ [⟨DB.empty.lastId + 1, "a", ""⟩] :=
  ⟨rfl, rfl,
   (missing_fields_are_empty_strings Env.healthy ⟨"POST", "/rows", "\x7b\"name\":\"a\"\x7d"⟩
      DB.empty [("name", JSON.str "a")] ⟨0, "a", ""⟩ rfl rfl rfl rfl rfl).2.2.1,
   (missing_fields_are_empty_strings Env.healthy ⟨"POST", "/rows", "\x7b\"name\":\"a\"\x7d"⟩
      DB.empty [("name", JSON.str "a")] ⟨0, "a", ""⟩ rfl rfl rfl rfl rfl).2.2.2.2⟩

/-! ## What a failing storage shows to the client -/

theorem getRowsHandler_sameStep (f1 f2 : QueryFault) (w : ResponseWriter) (r : Request)
    (db : DB) (h : sameStep f1 f2 = true) :
    getRowsHandler f1 w r db = getRowsHandler f2 w r db := by
  cases f1 <;> cases f2 <;> simp [sameStep] at h
  · rfl
  · rw [getRowsHandler_query_failed, getRowsHandler_query_failed]
  · subst h
    rename_i n e1 e2
    by_cases hn : n < db.rows.length
    · rw [getRowsHandler_iteration_failed n e1 w r db hn,
        getRowsHandler_iteration_failed n e2 w r db hn]
    · simp only [getRowsHandler, DB.Query, hn, if_false]
  · subst h
    rename_i n e1 e2
    by_cases hn : n < db.rows.length
    · rw [getRowsHandler_scan_failed n e1 w r db hn, getRowsHandler_scan_failed n e2 w r db hn]
    · simp only [getRowsHandler, DB.Query, hn, if_false]

theorem postRowHandler_error_irrelevant (e1 e2 : String) (w : ResponseWriter) (r : Request)
    (db : DB) : postRowHandler (some e1) w r db = postRowHandler (some e2) w r db := by
  cases hd : Decode r.Body DummyData.zero with
  | error e =>
    rw [postRowHandler_undecodable _ w r db e hd, postRowHandler_undecodable _ w r db e hd]
  | ok d =>
    rw [postRowHandler_insert_failed e1 w r db d hd, postRowHandler_insert_failed e2 w r db d hd]

theorem router_sameStep (f1 f2 : QueryFault) (e1 e2 : String) (w : ResponseWriter)
    (r : Request) (db : DB) (h : sameStep f1 f2 = true) :
    router ⟨f1, some e1⟩ w r db = router ⟨f2, some e2⟩ w r db := by
  simp only [router, getRowsHandler_sameStep f1 f2 w r db h,
    postRowHandler_error_irrelevant e1 e2 w r db]

theorem getRowsHandler_finish (f : QueryFault) (r : Request) (db : DB) :
    (getRowsHandler f (corsWriter ResponseWriter.fresh) r db).1.finish
        = ⟨500, errorHeader, [Chunk.text "Failed to query database\n"]⟩ ∨
    (getRowsHandler f (corsWriter ResponseWriter.fresh) r db).1.finish
        = ⟨500, errorHeader, [Chunk.text "Failed to scan row\n"]⟩ ∨
    ∃ v, (getRowsHandler f (corsWriter ResponseWriter.fresh) r db).1.finish
        = ⟨200, jsonHeader, [Chunk.json v]⟩ := by
  unfold getRowsHandler
  rcases db.Query f with ⟨res, db1⟩
  cases res with
  | error e =>
    left
    show (httpError _ _ _).finish = _
    rw [finish_httpError]
    rfl
  | ok rows =>
    right
    dsimp only
    cases scanRows rows.items Option.none with
    | error e =>
      left
      show (httpError _ _ _).finish = _
      rw [finish_httpError]
      rfl
    | ok l =>
      right
      exact ⟨_, finish_json _⟩

theorem postRowHandler_finish (f : Option String) (r : Request) (db : DB) :
    (postRowHandler f (corsWriter ResponseWriter.fresh) r db).1.finish
        = ⟨400, errorHeader, [Chunk.text "Failed to decode JSON body\n"]⟩ ∨
    (postRowHandler f (corsWriter ResponseWriter.fresh) r db).1.finish
        = ⟨500, errorHeader, [Chunk.text "Failed to insert row\n"]⟩ ∨
    ∃ v, (postRowHandler f (corsWriter ResponseWriter.fresh) r db).1.finish
        = ⟨200, jsonHeader, [Chunk.json v]⟩ := by
  cases hd : Decode r.Body DummyData.zero with
  | error e =>
    left
    rw [postRowHandler_undecodable _ _ r db e hd, finish_httpError]
    rfl
  | ok d =>
    right
    cases f with
    | some e =>
      left
      rw [postRowHandler_insert_failed e _ r db d hd, finish_httpError]
      rfl
    | none =>
      right
      rw [postRowHandler_inserted _ r db d hd]
      exact ⟨_, finish_json _⟩

/-- The text of every 500 response is one of three fixed messages. -/
theorem serve_500_body (env : Env) (r : Request) (db : DB)
    (h : (serve env r db).1.status = 500) :
    (serve env r db).1.body = [Chunk.text "Failed to query database\n"] ∨
    (serve env r db).1.body = [Chunk.text "Failed to scan row\n"] ∨
    (serve env r db).1.body = [Chunk.text "Failed to insert row\n"] := by
  have hw : ((ResponseWriter.fresh.SetHeader "Access-Control-Allow-Origin" "*").SetHeader
      "Access-Control-Allow-Methods" "GET, POST, OPTIONS").SetHeader
      "Access-Control-Allow-Headers" "Content-Type" = corsWriter ResponseWriter.fresh := rfl
  unfold serve corsMiddleware at h ⊢
  simp only [hw] at h ⊢
  cases hopt : (r.Method == "OPTIONS")
  case true =>
    simp [hopt, corsWriter, ResponseWriter.finish, ResponseWriter.SetHeader,
      ResponseWriter.fresh] at h
  simp only [hopt, if_false, Bool.false_eq_true] at h ⊢
  unfold router at h ⊢
  cases hclean : (cleanPath r.Path != r.Path)
  case true =>
    simp [hclean, corsWriter, ResponseWriter.finish, ResponseWriter.SetHeader,
      ResponseWriter.WriteHeader, ResponseWriter.fresh] at h
  simp only [hclean, if_false, Bool.false_eq_true] at h ⊢
  cases hrows : (r.Path == "/rows")
  case false =>
    simp only [hrows, if_false, Bool.false_eq_true] at h
    rw [finish_httpError] at h
    exact absurd h (by decide)
  simp only [hrows, if_true] at h ⊢
  cases hget : (r.Method == "GET")
  case true =>
    simp only [hget, if_true] at h ⊢
    rcases getRowsHandler_finish env.query r db with h1 | h1 | ⟨v, h1⟩
    · rw [h1]; exact Or.inl rfl
    · rw [h1]; exact Or.inr (Or.inl rfl)
    · rw [h1] at h; simp at h
  simp only [hget, if_false, Bool.false_eq_true] at h ⊢
  cases hpost : (r.Method == "POST")
  case true =>
    simp only [hpost, if_true] at h ⊢
    rcases postRowHandler_finish env.ins r db with h1 | h1 | ⟨v, h1⟩
    · rw [h1] at h; exact absurd h (by decide)
    · rw [h1]; exact Or.inr (Or.inr rfl)
    · rw [h1] at h; simp at h
  simp [hpost, corsWriter, ResponseWriter.finish, ResponseWriter.SetHeader,
    ResponseWriter.WriteHeader, ResponseWriter.fresh] at h

/-- C9: two runs of the service on the same request and database in which the
storage fails at the same step with different errors (e1, e2 for the insert;
the errors inside the query faults f1, f2) produce the same response (status,
headers, body) and the same database; and whenever the status is 500 the body
is one of three fixed texts. -/
theorem storage_error_not_leaked (f1 f2 : QueryFault) (e1 e2 : String) (r : Request) (db : DB)
    (h : sameStep f1 f2 = true) :
    serve ⟨f1, some e1⟩ r db = serve ⟨f2, some e2⟩ r db ∧
    ((serve ⟨f1, some e1⟩ r db).1.status = 500 →
      (serve ⟨f1, some e1⟩ r db).1.body = [Chunk.text "Failed to query database\n"] ∨
      (serve ⟨f1, some e1⟩ r db).1.body = [Chunk.text "Failed to scan row\n"] ∨
      (serve ⟨f1, some e1⟩ r db).1.body = [Chunk.text "Failed to insert row\n"]) := by
  refine ⟨?_, serve_500_body _ r db⟩
  simp only [serve, corsMiddleware, router_sameStep f1 f2 e1 e2 _ r db h]

theorem storage_error_not_leaked_witness :
    (serve ⟨QueryFault.start "dial tcp 10.0.0.5:5432: connection refused", some "x"⟩
        ⟨"GET", "/rows", ""⟩ DB.empty).1 =
    (serve ⟨QueryFault.start "pq: password authentication failed for user admin", some "y"⟩
        ⟨"GET", "/rows", ""⟩ DB.empty).1 ∧
    (serve ⟨QueryFault.start "dial tcp 10.0.0.5:5432: connection refused", some "x"⟩
        ⟨"GET", "/rows", ""⟩ DB.empty).1.status = 500 :=
  ⟨congrArg Prod.fst
    (storage_error_not_leaked (QueryFault.start "dial tcp 10.0.0.5:5432: connection refused")
      (QueryFault.start "pq: password authentication failed for user admin") "x" "y"
      ⟨"GET", "/rows", ""⟩ DB.empty rfl).1,
   by decide⟩

/-! ## Database operations per request -/

theorem getRowsHandler_calls (f : QueryFault) (w : ResponseWriter) (r : Request) (db : DB) :
    (getRowsHandler f w r db).2.calls = db.calls + 1 := by
  unfold getRowsHandler
  have hq : (db.Query f).2.calls = db.calls + 1 := by
    cases f <;> simp only [DB.Query] <;> first | rfl | (split <;> rfl)
  rcases hres : db.Query f with ⟨res, db1⟩
  rw [hres] at hq
  cases res with
  | error e => exact hq
  | ok rows =>
    dsimp only
    cases scanRows rows.items Option.none <;> exact hq

theorem postRowHandler_calls (f : Option String) (w : ResponseWriter) (r : Request) (db : DB)
    (d : DummyData) (hd : Decode r.Body DummyData.zero = .ok d) :
    (postRowHandler f w r db).2.calls = db.calls + 1 := by
  cases f with
  | some e => rw [postRowHandler_insert_failed e w r db d hd]
  | none => rw [postRowHandler_inserted w r db d hd]

/-- C10 (as stated, refuted): an OPTIONS request, and a POST /rows whose body
does not decode, are served without any database operation. -/
theorem requests_without_db_operation :
    (serve Env.healthy ⟨"OPTIONS", "/rows", ""⟩ DB.empty).2.calls - DB.empty.calls = 0 ∧
    (serve Env.healthy ⟨"OPTIONS", "/rows", ""⟩ DB.empty).2.calls - DB.empty.calls ≠ 1 ∧
    (serve Env.healthy ⟨"POST", "/rows", "not json"⟩ DB.empty).2.calls - DB.empty.calls = 0 := by
  decide

/-- C10 (amended): a GET /rows and a POST /rows with a decodable body each
issue exactly one operation on the database handle, whatever the storage
does; an OPTIONS request (any path) and a POST /rows whose body does not
decode issue none. -/
theorem db_operations_per_request (env : Env) (r : Request) (db : DB) :
    (r.Method = "OPTIONS" → (serve env r db).2.calls = db.calls) ∧
    (r.Method = "GET" → r.Path = "/rows" → (serve env r db).2.calls = db.calls + 1) ∧
    (r.Method = "POST" → r.Path = "/rows" →
      (∀ d, Decode r.Body DummyData.zero = .ok d → (serve env r db).2.calls = db.calls + 1) ∧
      (∀ e, Decode r.Body DummyData.zero = .error e → (serve env r db).2.calls = db.calls)) := by
  refine ⟨fun hm => ?_, fun hm hp => ?_, fun hm hp => ⟨fun d hd => ?_, fun e hd => ?_⟩⟩
  · have h1 : (r.Method == "OPTIONS") = true := by rw [hm]; decide
    simp only [serve, corsMiddleware, h1, if_true]
  · rw [serve_get env r db hm hp]
    exact getRowsHandler_calls _ _ r db
  · rw [serve_post env r db hm hp]
    exact postRowHandler_calls _ _ r db d hd
  · rw [serve_post env r db hm hp, postRowHandler_undecodable _ _ r db e hd]

theorem db_operations_per_request_witness :
    (serve ⟨QueryFault.start "down", Option.none⟩ ⟨"GET", "/rows", ""⟩ ⟨[], 0, 7⟩).2.calls = 7 + 1 ∧
    (serve Env.healthy ⟨"POST", "/rows", "\x7b\"name\":\"a\",\"value\":\"1\"\x7d"⟩
        ⟨[], 0, 7⟩).2.calls = 7 + 1 ∧
    (serve Env.healthy ⟨"POST", "/rows", "not json"⟩ ⟨[], 0, 7⟩).2.calls = 7 ∧
    (serve Env.healthy ⟨"OPTIONS", "/x", ""⟩ ⟨[], 0, 7⟩).2.calls = 7 :=
  ⟨(db_operations_per_request ⟨QueryFault.start "down", Option.none⟩ ⟨"GET", "/rows", ""⟩
      ⟨[], 0, 7⟩).2.1 rfl rfl,
   ((db_operations_per_request Env.healthy
      ⟨"POST", "/rows", "\x7b\"name\":\"a\",\"value\":\"1\"\x7d"⟩ ⟨[], 0, 7⟩).2.2 rfl rfl).1
      ⟨0, "a", "1"⟩ rfl,
   ((db_operations_per_request Env.healthy ⟨"POST", "/rows", "not json"⟩ ⟨[], 0, 7⟩).2.2
      rfl rfl).2 DecodeError.syntaxError rfl,
   (db_operations_per_request Env.healthy ⟨"OPTIONS", "/x", ""⟩ ⟨[], 0, 7⟩).1 rfl⟩

end MultiTier
